import Mathlib

/-!
Verification development for the market-data quote pipeline of the
sea-stocks portfolio application: a shallow embedding of
`services/marketData/marketDataService.ts` (the `AlphaVantageService`
class) and `services/marketData/priceCacheService.ts`
(the `PriceCacheService` class), together with theorems about the
quote-retrieval and caching behaviour.

Modelling conventions:
* A JavaScript `number` is modelled as `Option Q` over an executable
  rational type `Q`, where `none` models
  `NaN` (all fields of interest are produced by `parseFloat` / `parseInt`,
  which yield `NaN` instead of raising an error on malformed input).
* A JavaScript `Date` is modelled as `Option Int` (milliseconds since the
  Unix epoch); `none` models an `Invalid Date`, whose `getTime()` is `NaN`.
* The persistent price-cache table is modelled as an association list of
  rows keyed by the `symbol` column (unique in the schema); the whole
  storage layer is `Option` of that list, with `none` modelling a failing
  database connection (every operation on it throws, which the cache
  service catches).
* The upstream HTTP exchange is modelled as a function from the
  (upper-cased) requested symbol to an abstract response outcome.
-/

namespace SeaStocks

/-- An executable rational number: numerator over positive denominator,
kept in lowest terms by the `Q.norm` smart constructor, so that structural
equality is value equality.  (JS numbers are IEEE doubles; as usual for a
shallow embedding they are idealized as exact rationals.) -/
structure Q where
  num : Int
  den : Nat
deriving DecidableEq, Repr

/-- Normalized rational `n / d` (callers always pass `0 < d`). -/
def Q.norm (n : Int) (d : Nat) : Q :=
  let g := Nat.gcd n.natAbs d
  ⟨n / (g : Int), d / g⟩

/-- The rational `n` itself. -/
def Q.ofInt (n : Int) : Q := ⟨n, 1⟩

/-- The rational `u + c/100` (every static-table value has two decimals,
so `Q.cent 175 25` is the source literal `175.25`). -/
def Q.cent (u : Int) (c : Int) : Q := Q.norm (u * 100 + c) 100

/-- Comparison `a < b` by cross-multiplication (denominators positive). -/
def Q.blt (a b : Q) : Bool := decide (a.num * (b.den : Int) < b.num * (a.den : Int))

/-- A JS number; `none` is `NaN`. -/
abbrev JSNum := Option Q

/-- A JS `Date` as epoch milliseconds; `none` is an `Invalid Date`. -/
abbrev JSDate := Option Int

/-- JS `toUpperCase` on one character (ASCII range, which is all ticker
symbols use). -/
def charUpper (c : Char) : Char :=
  if c.isLower then Char.ofNat (c.toNat - 32) else c

/-- JS `String.prototype.toUpperCase` (ASCII). -/
def toUpperJS (s : String) : String := String.mk (s.toList.map charUpper)

/-- JS `a > b`: false whenever either side is `NaN`. -/
def jsGtB : JSNum → JSNum → Bool
  | some a, some b => Q.blt b a
  | _, _ => false

/-- The `StockQuote` interface of `marketDataService.ts`. -/
structure StockQuote where
  symbol : String
  price : JSNum
  change : JSNum
  changePercent : JSNum
  volume : JSNum
  lastUpdated : JSDate
deriving DecidableEq, Repr

/-! ### JS numeric-string parsing (`parseFloat`, `parseInt`, `replace`) -/

/-- Longest prefix of decimal digits, as digit values, plus the rest. -/
def takeDigits : List Char → List Nat × List Char
  | [] => ([], [])
  | c :: cs =>
    if c.isDigit then
      let (ds, rest) := takeDigits cs
      ((c.toNat - 48) :: ds, rest)
    else ([], c :: cs)

/-- Value of a digit string read most-significant first. -/
def natOfDigits (ds : List Nat) : Nat := ds.foldl (fun a d => a * 10 + d) 0

/-- Whitespace skipped by JS numeric parsing. -/
def isJsSpace (c : Char) : Bool := c = ' ' ∨ c = '\t' ∨ c = '\n' ∨ c = '\r'

/-- JS `parseFloat`: skip leading whitespace, optional sign, then the
longest `digits[.digits]` prefix; `NaN` (`none`) when no digit is found.
(The exponent and `Infinity` forms, unused by this data source, are not
modelled.) -/
def parseFloatJS (s : String) : JSNum :=
  let cs := s.toList.dropWhile isJsSpace
  let (neg, cs) : Bool × List Char :=
    match cs with
    | '-' :: t => (true, t)
    | '+' :: t => (false, t)
    | _ => (false, cs)
  let (ip, cs) := takeDigits cs
  match cs with
  | '.' :: t =>
    let (fp, _) := takeDigits t
    if ip = [] ∧ fp = [] then none
    else
      let n : Int := (natOfDigits ip * 10 ^ fp.length + natOfDigits fp : Nat)
      some (Q.norm (if neg then -n else n) (10 ^ fp.length))
  | _ =>
    if ip = [] then none
    else
      let n : Int := (natOfDigits ip : Nat)
      some (Q.norm (if neg then -n else n) 1)

/-- JS `parseInt` (radix 10): skip whitespace, optional sign, longest digit
prefix; `NaN` (`none`) when no digit is found. -/
def parseIntJS (s : String) : JSNum :=
  let cs := s.toList.dropWhile isJsSpace
  let (neg, cs) : Bool × List Char :=
    match cs with
    | '-' :: t => (true, t)
    | '+' :: t => (false, t)
    | _ => (false, cs)
  let (ip, _) := takeDigits cs
  if ip = [] then none
  else
    let n : Int := (natOfDigits ip : Nat)
    some (Q.norm (if neg then -n else n) 1)

/-- JS `String.replace('%', '')`: remove the first occurrence of `'%'`. -/
def replaceFirstPercent : List Char → List Char
  | [] => []
  | c :: cs => if c = '%' then cs else c :: replaceFirstPercent cs

/-- The `s.replace('%', '')` operation on strings. -/
def stripPercent (s : String) : String := String.mk (replaceFirstPercent s.toList)

/-! ### JS date parsing (`new Date(string)` on ISO `YYYY-MM-DD` input) -/

/-- Gregorian leap-year test. -/
def isLeapYear (y : Int) : Bool := y % 4 = 0 ∧ (y % 100 ≠ 0 ∨ y % 400 = 0)

/-- Days in a month of a given year (0 for an out-of-range month). -/
def daysInMonth (y : Int) (m : Nat) : Nat :=
  if m = 1 ∨ m = 3 ∨ m = 5 ∨ m = 7 ∨ m = 8 ∨ m = 10 ∨ m = 12 then 31
  else if m = 4 ∨ m = 6 ∨ m = 9 ∨ m = 11 then 30
  else if m = 2 then (if isLeapYear y then 29 else 28)
  else 0

/-- Days from 1970-01-01 to the given civil date (proleptic Gregorian). -/
def daysFromCivil (y : Int) (m d : Nat) : Int :=
  let y' : Int := if m ≤ 2 then y - 1 else y
  let era : Int := Int.fdiv y' 400
  let yoe : Int := y' - era * 400
  let mp : Int := if 2 < m then (m : Int) - 3 else (m : Int) + 9
  let doy : Int := (153 * mp + 2) / 5 + (d : Int) - 1
  let doe : Int := yoe * 365 + yoe / 4 - yoe / 100 + doy
  era * 146097 + doe - 719468

/-- Value of an all-digit string (helper for date parsing). -/
def digitsVal (s : String) : Nat := natOfDigits (s.toList.map (fun c => c.toNat - 48))

/-- Split a character list at every `'-'`. -/
def splitDashAux : List Char → List Char → List (List Char)
  | [], acc => [acc.reverse]
  | c :: cs, acc =>
    if c = '-' then acc.reverse :: splitDashAux cs [] else splitDashAux cs (c :: acc)

/-- Split a string at every `'-'` (the separator of the ISO date form). -/
def splitDash (s : String) : List String := (splitDashAux s.toList []).map String.mk

/-- JS `new Date(s)` for the ISO calendar-date form `YYYY-MM-DD` that the
upstream's `latest trading day` field uses: UTC midnight of that date, or
an `Invalid Date` (`none`) when the field does not denote a valid calendar
date in that form. -/
def parseDateJS (s : String) : JSDate :=
  match splitDash s with
  | [ys, ms, ds] =>
    if ys.length = 4 ∧ ms.length = 2 ∧ ds.length = 2 ∧
       ys.toList.all Char.isDigit ∧ ms.toList.all Char.isDigit ∧ ds.toList.all Char.isDigit then
      let y : Int := (digitsVal ys : Int)
      let m : Nat := digitsVal ms
      let d : Nat := digitsVal ds
      if 1 ≤ m ∧ m ≤ 12 ∧ 1 ≤ d ∧ d ≤ daysInMonth y m then
        some (daysFromCivil y m d * 86400000)
      else none
    else none
  | _ => none

/-! ### The price cache (`priceCacheService.ts` over the `priceCache` table) -/

/-- The persisted `priceCache` table: one row per (unique) symbol. -/
abbrev Store := List StockQuote

/-- The storage layer; `none` models a database whose operations throw. -/
abbrev Db := Option Store

/-- Model of `dbClient.priceCache.findBySymbol`: first (unique) row with the key. -/
def findBySymbol (store : Store) (key : String) : Option StockQuote :=
  store.find? (fun r => r.symbol = key)

/-- Model of `dbClient.priceCache.upsert`, keyed by the unique `symbol` column:
replace the existing row or append a new one. -/
def upsert : Store → StockQuote → Store
  | [], e => [e]
  | r :: rs, e => if r.symbol = e.symbol then e :: rs else r :: upsert rs e

/-- The age `(now.getTime() - cached.lastUpdated.getTime()) / 1000 / 60`, i.e.
`(now - t) / 60000`: cache-entry age in minutes; `NaN` for an
`Invalid Date` timestamp. -/
def cacheAge (now : Int) (lastUpdated : JSDate) : JSNum :=
  lastUpdated.map (fun t => Q.norm (now - t) 60000)

/-- The `cacheAge > this.cacheExpiryMinutes` test of `getCachedPrice`. -/
def expiredB (expiry : Q) (now : Int) (lastUpdated : JSDate) : Bool :=
  jsGtB (cacheAge now lastUpdated) (some expiry)

/-- Model of `PriceCacheService.getCachedPrice`: upper-case the symbol, look the row
up, return `none` on a missing row, on an expired row, or when the storage
layer throws (the surrounding `try`/`catch` turns any error into `null`). -/
def getCachedPrice (expiry : Q) (db : Db) (now : Int) (symbol : String) : Option StockQuote :=
  match db with
  | none => none
  | some store =>
    match findBySymbol store (toUpperJS symbol) with
    | none => none
    | some cached =>
      if expiredB expiry now cached.lastUpdated then none
      else
        some { symbol := cached.symbol, price := cached.price, change := cached.change,
               changePercent := cached.changePercent, volume := cached.volume,
               lastUpdated := cached.lastUpdated }

/-- Model of `PriceCacheService.setCachedPrice`: upsert the quote under its
upper-cased symbol; a storage error is caught and silently dropped, leaving
the failing storage as it is.  (The source's `quote.lastUpdated || new
Date()` always takes `quote.lastUpdated`, a `Date` object being truthy.) -/
def setCachedPrice (db : Db) (q : StockQuote) : Db :=
  match db with
  | none => none
  | some store => some (upsert store { q with symbol := toUpperJS q.symbol })

/-! ### The quote provider (`AlphaVantageService`) -/

/-- One row of the static fallback table of `getMockQuote`
(all fields except `symbol` and `lastUpdated`). -/
structure MockRow where
  price : Q
  change : Q
  changePercent : Q
  volume : Q
deriving DecidableEq, Repr

/-- The `mockData` table of `AlphaVantageService.getMockQuote`. -/
def mockData : List (String × MockRow) :=
  [("AAPL", ⟨Q.cent 175 25, Q.cent 2 15, Q.cent 1 24, Q.ofInt 65432100⟩),
   ("GOOGL", ⟨Q.cent 2845 75, Q.cent (-15) (-25), Q.cent 0 (-53), Q.ofInt 1234567⟩),
   ("TSLA", ⟨Q.cent 245 80, Q.cent 8 25, Q.cent 3 48, Q.ofInt 45678901⟩),
   ("MSFT", ⟨Q.cent 415 60, Q.cent 5 40, Q.cent 1 32, Q.ofInt 23456789⟩),
   ("NVDA", ⟨Q.cent 875 45, Q.cent 12 75, Q.cent 1 48, Q.ofInt 34567890⟩),
   ("META", ⟨Q.cent 485 20, Q.cent (-8) (-30), Q.cent (-1) (-68), Q.ofInt 18765432⟩),
   ("AMZN", ⟨Q.cent 165 75, Q.cent 3 25, Q.cent 2 0, Q.ofInt 41234567⟩),
   ("NFLX", ⟨Q.cent 425 80, Q.cent (-2) (-45), Q.cent 0 (-57), Q.ofInt 8765432⟩),
   ("SPY", ⟨Q.cent 485 60, Q.cent 1 85, Q.cent 0 38, Q.ofInt 78901234⟩),
   ("QQQ", ⟨Q.cent 395 40, Q.cent 2 20, Q.cent 0 56, Q.ofInt 56789012⟩),
   ("F", ⟨Q.cent 11 25, Q.cent 0 15, Q.cent 1 35, Q.ofInt 89012345⟩),
   ("GM", ⟨Q.cent 38 75, Q.cent 0 (-85), Q.cent (-2) (-15), Q.ofInt 12345678⟩)]

/-- Model of `AlphaVantageService.getMockQuote`: look the upper-cased symbol up in
the static table; on a hit return its values with the symbol upper-cased
and `lastUpdated = new Date()` (the current time `now`), else `null`. -/
def getMockQuote (now : Int) (symbol : String) : Option StockQuote :=
  (mockData.lookup (toUpperJS symbol)).map fun d =>
    { symbol := toUpperJS symbol, price := some d.price, change := some d.change,
      changePercent := some d.changePercent, volume := some d.volume,
      lastUpdated := some now }

/-- The `Global Quote` object of a successful upstream JSON body, with the
fields `getQuote` reads.  `price05`, `change09`, `volume06` and
`latestTradingDay07` are plain strings, with `""` standing for an absent or
empty field (absent and empty behave identically there: the price check
`!quote['05. price']` treats both as falsy, and `parseFloat` / `parseInt` /
`new Date` give `NaN` / `Invalid Date` on both); `changePercent10` is
`Option` because an absent `10. change percent` makes
`.replace('%', '')` throw, unlike an empty one. -/
structure RawGlobalQuote where
  symbol01 : String
  price05 : String
  change09 : String
  changePercent10 : Option String
  volume06 : String
  latestTradingDay07 : String
deriving DecidableEq, Repr

/-- Outcome of one upstream `GLOBAL_QUOTE` HTTP exchange:
the `fetch`/`json()` call throws, a non-2xx status (`!response.ok`), a body
carrying a `Note` or `Error Message` field, or a JSON body whose
`Global Quote` member is `gq` (absent when `gq = none`). -/
inductive UpstreamResult where
  | fetchThrow
  | httpError
  | noteOrError
  | payload (gq : Option RawGlobalQuote)
deriving DecidableEq, Repr

/-- Provider environment: whether an API key is configured
(`useMockData = !apiKey`) and the upstream response per requested
(upper-cased) symbol. -/
structure Env where
  hasApiKey : Bool
  upstream : String → UpstreamResult

/-- The `stockQuote` object literal built from a live response, given the
`10. change percent` string `cp` (known present, else the build throws). -/
def buildStockQuote (gq : RawGlobalQuote) (cp : String) : StockQuote :=
  { symbol := gq.symbol01
    price := parseFloatJS gq.price05
    change := parseFloatJS gq.change09
    changePercent := parseFloatJS (stripPercent cp)
    volume := parseIntJS gq.volume06
    lastUpdated := parseDateJS gq.latestTradingDay07 }

/-- Observable outcome of one `AlphaVantageService.getQuote` call: the
returned value, the storage layer afterwards, and how many upstream HTTP
requests were attempted. -/
structure QuoteOutcome where
  result : Option StockQuote
  db : Db
  liveFetches : Nat
deriving DecidableEq, Repr

/-- Model of `AlphaVantageService.getQuote` (the singleton `priceCacheService` has
the default 5-minute expiry window): serve a fresh cache entry if any;
otherwise in mock mode serve the static table; otherwise attempt one live
fetch, falling back to the static table on a thrown fetch, a non-2xx
status, a `Note`/`Error Message` body, or a thrown
`'10. change percent'.replace` (the one field access that can throw);
returning `null` when the body has no `Global Quote` or a falsy
`05. price`; and on success caching and returning the built quote. -/
def getQuote (env : Env) (db : Db) (now : Int) (symbol : String) : QuoteOutcome :=
  match getCachedPrice (Q.ofInt 5) db now symbol with
  | some cached => ⟨some cached, db, 0⟩
  | none =>
    if env.hasApiKey = false then ⟨getMockQuote now symbol, db, 0⟩
    else
      match env.upstream (toUpperJS symbol) with
      | .fetchThrow => ⟨getMockQuote now symbol, db, 1⟩
      | .httpError => ⟨getMockQuote now symbol, db, 1⟩
      | .noteOrError => ⟨getMockQuote now symbol, db, 1⟩
      | .payload none => ⟨none, db, 1⟩
      | .payload (some gq) =>
        if gq.price05 = "" then ⟨none, db, 1⟩
        else
          match gq.changePercent10 with
          | none => ⟨getMockQuote now symbol, db, 1⟩
          | some cp =>
            let sq := buildStockQuote gq cp
            ⟨some sq, setCachedPrice db sq, 1⟩

/-- Events observable from `getMultipleQuotes`: the start of the per-symbol
`getQuote` call, and a `sleep(ms)` delay. -/
inductive Ev where
  | call (symbol : String)
  | delay (ms : Nat)
deriving DecidableEq, Repr

/-- Observable outcome of one `getMultipleQuotes` call. -/
structure MultiOutcome where
  quotes : List StockQuote
  db : Db
  events : List Ev
deriving DecidableEq, Repr

/-- Model of `AlphaVantageService.getMultipleQuotes`: fetch each symbol in turn with
`getQuote`, keep the non-null results in order, and sleep 12000 ms after
each symbol but the last whenever an API key is configured
(`!this.useMockData && i < symbols.length - 1`). -/
def getMultipleQuotes (env : Env) (db : Db) (now : Int) : List String → MultiOutcome
  | [] => ⟨[], db, []⟩
  | s :: rest =>
    let o := getQuote env db now s
    let tail := getMultipleQuotes env o.db now rest
    { quotes := match o.result with
        | some q => q :: tail.quotes
        | none => tail.quotes
      db := tail.db
      events := Ev.call s ::
        ((if env.hasApiKey && !rest.isEmpty then [Ev.delay 12000] else []) ++ tail.events) }

/-! ### Specification-side reference functions (for the sequencing claims) -/

/-- The per-symbol `getQuote` results of a `getMultipleQuotes` run, in
input order, nulls included (threading the storage layer the same way). -/
def runSymbols (env : Env) (db : Db) (now : Int) : List String → List (Option StockQuote)
  | [] => []
  | s :: rest =>
    let o := getQuote env db now s
    o.result :: runSymbols env o.db now rest

/-- The event trace the spec prescribes for a live-configured batch: the
symbols called in input order with one fixed 12000 ms delay between each
consecutive pair. -/
def callsWithDelays : List String → List Ev
  | [] => []
  | [s] => [Ev.call s]
  | s :: rest => Ev.call s :: Ev.delay 12000 :: callsWithDelays rest

/-- Number of delay events in a trace. -/
def countDelays (evs : List Ev) : Nat :=
  evs.countP (fun e => match e with | Ev.delay _ => true | _ => false)

/-! ### Concrete test fixtures -/

/-- A well-formed upstream `Global Quote` body: price 100, change 1,
change percent `"1%"`, volume 10, latest trading day 1970-01-02 (whose
UTC-midnight timestamp is 86400000 ms). -/
def gqOk : RawGlobalQuote := ⟨"AAPL", "100", "1", some "1%", "10", "1970-01-02"⟩

/-- A live-configured environment whose upstream always answers `gqOk`. -/
def envOk : Env := ⟨true, fun _ => UpstreamResult.payload (some gqOk)⟩

/-- An upstream body whose price field `"abc"` fails numeric parsing. -/
def gqBadPrice : RawGlobalQuote := ⟨"AAPL", "abc", "1", some "1%", "10", "1970-01-02"⟩

/-- A live-configured environment always answering `gqBadPrice`. -/
def envBadPrice : Env := ⟨true, fun _ => UpstreamResult.payload (some gqBadPrice)⟩

/-- An upstream body with no `10. change percent` field at all. -/
def gqNoCp : RawGlobalQuote := ⟨"AAPL", "100", "1", none, "10", "1970-01-02"⟩

/-- A live-configured environment always answering `gqNoCp`. -/
def envNoCp : Env := ⟨true, fun _ => UpstreamResult.payload (some gqNoCp)⟩

/-- An upstream body whose `05. price` is the falsy empty string. -/
def gqEmptyPrice : RawGlobalQuote := ⟨"AAPL", "", "1", some "1%", "10", "1970-01-02"⟩

/-- A live-configured environment always answering `gqEmptyPrice`. -/
def envEmptyPrice : Env := ⟨true, fun _ => UpstreamResult.payload (some gqEmptyPrice)⟩

/-- An upstream body carrying the negative price `"-5"`. -/
def gqNegPrice : RawGlobalQuote := ⟨"AAPL", "-5", "0", some "0%", "1", "1970-01-01"⟩

/-- A live-configured environment always answering `gqNegPrice`. -/
def envNegPrice : Env := ⟨true, fun _ => UpstreamResult.payload (some gqNegPrice)⟩

/-- A quote whose symbol is spelled in lower case. -/
def lowQuote : StockQuote :=
  ⟨"aapl", some (Q.ofInt 1), some (Q.ofInt 0), some (Q.ofInt 0), some (Q.ofInt 0), some 0⟩

/-! ### Helper lemmas -/

/-- Upserting a row makes it the row found under its own key. -/
theorem findBySymbol_upsert_self (store : Store) (e : StockQuote) :
    findBySymbol (upsert store e) e.symbol = some e := by
  induction store with
  | nil => simp [upsert, findBySymbol]
  | cons r rs ih =>
    by_cases h : r.symbol = e.symbol
    · simp [upsert, findBySymbol, h]
    · simpa [upsert, findBySymbol, h] using ih

/-- Every row of an upserted store is an old row or the new row. -/
theorem mem_upsert {store : Store} {e r : StockQuote} (h : r ∈ upsert store e) :
    r ∈ store ∨ r = e := by
  induction store with
  | nil => simpa [upsert] using h
  | cons x xs ih =>
    by_cases hx : x.symbol = e.symbol
    · simp only [upsert, if_pos hx, List.mem_cons] at h
      rcases h with h | h
      · exact Or.inr h
      · exact Or.inl (List.mem_cons_of_mem _ h)
    · simp only [upsert, if_neg hx, List.mem_cons] at h
      rcases h with h | h
      · subst h; exact Or.inl (List.mem_cons_self _ _)
      · rcases ih h with h' | h'
        · exact Or.inl (List.mem_cons_of_mem _ h')
        · exact Or.inr h'

/-- A successful association-list lookup comes from a member pair. -/
theorem lookup_mem {β : Type} {l : List (String × β)} {k : String} {v : β}
    (h : l.lookup k = some v) : (k, v) ∈ l := by
  induction l with
  | nil => simp [List.lookup] at h
  | cons p ps ih =>
    obtain ⟨a, b⟩ := p
    rw [List.lookup] at h
    cases hk : k == a
    · simp only [hk] at h
      exact List.mem_cons_of_mem _ (ih h)
    · simp only [hk] at h
      obtain rfl : k = a := by simpa using hk
      obtain rfl : b = v := by simpa using h
      exact List.mem_cons_self _ _

/-- The read `getCachedPrice` depends on the symbol only through its upper-casing. -/
theorem getCachedPrice_congr (e : Q) (db : Db) (now : Int) {s t : String}
    (h : toUpperJS s = toUpperJS t) :
    getCachedPrice e db now s = getCachedPrice e db now t := by
  cases db with
  | none => rfl
  | some store => unfold getCachedPrice; rw [h]

/-- The lookup `getMockQuote` depends on the symbol only through its upper-casing. -/
theorem getMockQuote_congr (now : Int) {s t : String} (h : toUpperJS s = toUpperJS t) :
    getMockQuote now s = getMockQuote now t := by
  unfold getMockQuote; rw [h]

/-- A fresh cache hit is returned as is: no fetch, no storage change. -/
theorem getQuote_cache_hit (env : Env) (db : Db) (now : Int) (s : String) (q : StockQuote)
    (hq : getCachedPrice (Q.ofInt 5) db now s = some q) :
    getQuote env db now s = ⟨some q, db, 0⟩ := by
  unfold getQuote
  rw [hq]

/-- On a cache miss in live mode with a well-formed upstream body,
`getQuote` returns the built quote and upserts it into the storage. -/
theorem getQuote_live_success (env : Env) (db : Db) (now : Int) (s : String)
    (gq : RawGlobalQuote) (cp : String)
    (hmiss : getCachedPrice (Q.ofInt 5) db now s = none)
    (hkey : env.hasApiKey = true)
    (hup : env.upstream (toUpperJS s) = UpstreamResult.payload (some gq))
    (hp : gq.price05 ≠ "")
    (hcp : gq.changePercent10 = some cp) :
    getQuote env db now s =
      ⟨some (buildStockQuote gq cp), setCachedPrice db (buildStockQuote gq cp), 1⟩ := by
  unfold getQuote
  split
  · rename_i cached hc
    rw [hmiss] at hc
    exact Option.noConfusion hc
  · split
    · rename_i hfalse
      rw [hkey] at hfalse
      exact Bool.noConfusion hfalse
    · split
      · rename_i hu
        rw [hup] at hu
        exact UpstreamResult.noConfusion hu
      · rename_i hu
        rw [hup] at hu
        exact UpstreamResult.noConfusion hu
      · rename_i hu
        rw [hup] at hu
        exact UpstreamResult.noConfusion hu
      · rename_i hu
        rw [hup] at hu
        injection hu with h
        exact Option.noConfusion h
      · rename_i gq2 hu
        rw [hup] at hu
        injection hu with h
        injection h with h2
        subst h2
        split
        · rename_i hpe
          exact absurd hpe hp
        · split
          · rename_i hcpe
            rw [hcp] at hcpe
            exact Option.noConfusion hcpe
          · rename_i cp2 hcpe
            rw [hcp] at hcpe
            injection hcpe with h3
            subst h3
            rfl

/-- On a cache miss in live mode, a body whose `10. change percent` field
is absent makes the quote construction throw (`undefined.replace`), which
the `catch` turns into the static fallback; the storage is untouched. -/
theorem getQuote_cp_missing_falls_back (env : Env) (db : Db) (now : Int) (s : String)
    (gq : RawGlobalQuote)
    (hmiss : getCachedPrice (Q.ofInt 5) db now s = none)
    (hkey : env.hasApiKey = true)
    (hup : env.upstream (toUpperJS s) = UpstreamResult.payload (some gq))
    (hp : gq.price05 ≠ "")
    (hcp : gq.changePercent10 = none) :
    getQuote env db now s = ⟨getMockQuote now s, db, 1⟩ := by
  unfold getQuote
  split
  · rename_i cached hc
    rw [hmiss] at hc
    exact Option.noConfusion hc
  · split
    · rename_i hfalse
      rw [hkey] at hfalse
      exact Bool.noConfusion hfalse
    · split
      · rfl
      · rfl
      · rfl
      · rename_i hu
        rw [hup] at hu
        injection hu with h
        exact Option.noConfusion h
      · rename_i gq2 hu
        rw [hup] at hu
        injection hu with h
        injection h with h2
        subst h2
        split
        · rename_i hpe
          exact absurd hpe hp
        · split
          · rfl
          · rename_i cp2 hcpe
            rw [hcp] at hcpe
            exact Option.noConfusion hcpe

/-- On a cache miss in live mode, a body with a falsy `05. price` makes
`getQuote` answer `null` without touching the storage. -/
theorem getQuote_price_falsy_null (env : Env) (db : Db) (now : Int) (s : String)
    (gq : RawGlobalQuote)
    (hmiss : getCachedPrice (Q.ofInt 5) db now s = none)
    (hkey : env.hasApiKey = true)
    (hup : env.upstream (toUpperJS s) = UpstreamResult.payload (some gq))
    (hp : gq.price05 = "") :
    getQuote env db now s = ⟨none, db, 1⟩ := by
  unfold getQuote
  split
  · rename_i cached hc
    rw [hmiss] at hc
    exact Option.noConfusion hc
  · split
    · rename_i hfalse
      rw [hkey] at hfalse
      exact Bool.noConfusion hfalse
    · split
      · rename_i hu
        rw [hup] at hu
        exact UpstreamResult.noConfusion hu
      · rename_i hu
        rw [hup] at hu
        exact UpstreamResult.noConfusion hu
      · rename_i hu
        rw [hup] at hu
        exact UpstreamResult.noConfusion hu
      · rfl
      · rename_i gq2 hu
        rw [hup] at hu
        injection hu with h
        injection h with h2
        subst h2
        split
        · rfl
        · rename_i hpe
          exact absurd hp hpe

/-- A found, unexpired row is returned by `getCachedPrice` as is. -/
theorem getCachedPrice_found_fresh (e' : Q) (store : Store) (now : Int) (s : String)
    (r : StockQuote)
    (hfind : findBySymbol store (toUpperJS s) = some r)
    (hfresh : expiredB e' now r.lastUpdated = false) :
    getCachedPrice e' (some store) now s = some r := by
  simp only [getCachedPrice, hfind, hfresh]
  rfl

/-! ### Claim theorems -/

/-- C1: with no API key configured and no fresh cache entry for the symbol,
`getQuote` returns exactly the static-table values for the upper-cased
symbol — price, change, changePercent and volume from the table, the symbol
upper-cased, `lastUpdated` the call time — when the upper-cased symbol is
one of the table's 12 entries, and `null` otherwise; the storage is
untouched and no live fetch happens. -/
theorem getQuote_noKey_serves_static_table (env : Env) (db : Db) (now : Int) (s : String)
    (hkey : env.hasApiKey = false)
    (hmiss : getCachedPrice (Q.ofInt 5) db now s = none) :
    getQuote env db now s =
      ⟨(mockData.lookup (toUpperJS s)).map (fun d =>
          { symbol := toUpperJS s, price := some d.price, change := some d.change,
            changePercent := some d.changePercent, volume := some d.volume,
            lastUpdated := some now }), db, 0⟩ := by
  unfold getQuote
  rw [hmiss, hkey]
  rfl

/-- Witness for C1 at the concrete input `"aapl"` with an empty store. -/
theorem getQuote_noKey_serves_static_table_witness :
    (Env.mk false (fun _ => UpstreamResult.fetchThrow)).hasApiKey = false ∧
    getCachedPrice (Q.ofInt 5) (some []) 0 "aapl" = none ∧
    getQuote (Env.mk false (fun _ => UpstreamResult.fetchThrow)) (some []) 0 "aapl" =
      ⟨(mockData.lookup (toUpperJS "aapl")).map (fun d =>
          { symbol := toUpperJS "aapl", price := some d.price, change := some d.change,
            changePercent := some d.changePercent, volume := some d.volume,
            lastUpdated := some 0 }), some [], 0⟩ :=
  ⟨rfl, by decide,
   getQuote_noKey_serves_static_table (Env.mk false (fun _ => UpstreamResult.fetchThrow))
     (some []) 0 "aapl" rfl (by decide)⟩

/-- C9: `getQuote` is case-insensitive in the symbol — any two spellings
with the same upper-casing consult the same cache entry and return
identical results. -/
theorem getQuote_case_insensitive (env : Env) (db : Db) (now : Int) (s t : String)
    (h : toUpperJS s = toUpperJS t) :
    getQuote env db now s = getQuote env db now t := by
  have hm : ∀ n : Int, getMockQuote n s = getMockQuote n t :=
    fun n => getMockQuote_congr n h
  unfold getQuote
  rw [getCachedPrice_congr (Q.ofInt 5) db now h]
  simp only [hm, h]

/-- Witness for C9 at `"aapl"` vs `"AAPL"`. -/
theorem getQuote_case_insensitive_witness :
    toUpperJS "aapl" = toUpperJS "AAPL" ∧
    getQuote (Env.mk false (fun _ => UpstreamResult.fetchThrow)) (some []) 0 "aapl" =
      getQuote (Env.mk false (fun _ => UpstreamResult.fetchThrow)) (some []) 0 "AAPL" :=
  ⟨by decide,
   getQuote_case_insensitive (Env.mk false (fun _ => UpstreamResult.fetchThrow))
     (some []) 0 "aapl" "AAPL" (by decide)⟩

/-- C6: cache reads and writes never propagate an error.  `getCachedPrice`
consults only the upper-cased symbol and answers `none` on a failing
storage layer, a missing row, or a row whose age strictly exceeds the
expiry window; `setCachedPrice` on a failing storage layer drops the write
silently.  (Both operations are total functions in this embedding: the
source wraps each in `try`/`catch`, so no error ever reaches the caller.) -/
theorem priceCache_error_and_miss_semantics (e : Q) (now : Int) (s t : String)
    (q : StockQuote) (db : Db) :
    getCachedPrice e none now s = none ∧
    (∀ store : Store, findBySymbol store (toUpperJS s) = none →
        getCachedPrice e (some store) now s = none) ∧
    (∀ (store : Store) (cached : StockQuote),
        findBySymbol store (toUpperJS s) = some cached →
        expiredB e now cached.lastUpdated = true →
        getCachedPrice e (some store) now s = none) ∧
    (toUpperJS s = toUpperJS t → getCachedPrice e db now s = getCachedPrice e db now t) ∧
    setCachedPrice none q = none := by
  refine ⟨rfl, ?_, ?_, fun h => getCachedPrice_congr e db now h, rfl⟩
  · intro store hfind
    simp only [getCachedPrice, hfind]
  · intro store cached hfind hexp
    simp only [getCachedPrice, hfind, hexp, if_true]

/-- Witness for C6: each conjunct instantiated at concrete inputs — a
failing storage layer, an empty store, a 10-minute-old entry with a
5-minute window, and the spellings `"aapl"`/`"AAPL"`. -/
theorem priceCache_error_and_miss_semantics_witness :
    getCachedPrice (Q.ofInt 5) none 0 "AAPL" = none ∧
    getCachedPrice (Q.ofInt 5) (some []) 0 "AAPL" = none ∧
    getCachedPrice (Q.ofInt 5)
      (some [⟨"AAPL", some (Q.ofInt 1), some (Q.ofInt 1), some (Q.ofInt 1),
              some (Q.ofInt 1), some 0⟩]) 600000 "AAPL" = none ∧
    getCachedPrice (Q.ofInt 5) (some []) 0 "aapl" =
      getCachedPrice (Q.ofInt 5) (some []) 0 "AAPL" ∧
    setCachedPrice none ⟨"AAPL", some (Q.ofInt 1), some (Q.ofInt 1), some (Q.ofInt 1),
      some (Q.ofInt 1), some 0⟩ = none :=
  ⟨(priceCache_error_and_miss_semantics (Q.ofInt 5) 0 "AAPL" "AAPL"
      ⟨"AAPL", some (Q.ofInt 1), some (Q.ofInt 1), some (Q.ofInt 1), some (Q.ofInt 1), some 0⟩
      none).1,
   (priceCache_error_and_miss_semantics (Q.ofInt 5) 0 "AAPL" "AAPL"
      ⟨"AAPL", some (Q.ofInt 1), some (Q.ofInt 1), some (Q.ofInt 1), some (Q.ofInt 1), some 0⟩
      none).2.1 [] (by decide),
   (priceCache_error_and_miss_semantics (Q.ofInt 5) 600000 "AAPL" "AAPL"
      ⟨"AAPL", some (Q.ofInt 1), some (Q.ofInt 1), some (Q.ofInt 1), some (Q.ofInt 1), some 0⟩
      none).2.2.1
      [⟨"AAPL", some (Q.ofInt 1), some (Q.ofInt 1), some (Q.ofInt 1), some (Q.ofInt 1), some 0⟩]
      ⟨"AAPL", some (Q.ofInt 1), some (Q.ofInt 1), some (Q.ofInt 1), some (Q.ofInt 1), some 0⟩
      (by decide) (by decide),
   (priceCache_error_and_miss_semantics (Q.ofInt 5) 0 "aapl" "AAPL"
      ⟨"AAPL", some (Q.ofInt 1), some (Q.ofInt 1), some (Q.ofInt 1), some (Q.ofInt 1), some 0⟩
      (some [])).2.2.2.1 (by decide),
   (priceCache_error_and_miss_semantics (Q.ofInt 5) 0 "AAPL" "AAPL"
      ⟨"AAPL", some (Q.ofInt 1), some (Q.ofInt 1), some (Q.ofInt 1), some (Q.ofInt 1), some 0⟩
      none).2.2.2.2⟩

/-- C4: `getQuote` writes to the Quote Cache only when a live
(non-fallback) quote came back: either the storage layer is left exactly
as it was, or the call hit the live-success path — upstream returned a
`Global Quote` with a truthy price and a present change-percent field —
and the storage is the old one with exactly that built quote upserted.
In particular a mock-mode call and a `null` result never touch the
storage, so static-table symbols are re-derived from the table on every
call. -/
theorem cache_written_only_on_live (env : Env) (db : Db) (now : Int) (s : String) :
    ((getQuote env db now s).db = db ∨
      ∃ gq cp, env.upstream (toUpperJS s) = UpstreamResult.payload (some gq) ∧
        gq.price05 ≠ "" ∧ gq.changePercent10 = some cp ∧
        (getQuote env db now s).result = some (buildStockQuote gq cp) ∧
        (getQuote env db now s).db = setCachedPrice db (buildStockQuote gq cp)) ∧
    (env.hasApiKey = false → (getQuote env db now s).db = db) ∧
    ((getQuote env db now s).result = none → (getQuote env db now s).db = db) := by
  unfold getQuote
  split
  · exact ⟨Or.inl rfl, fun _ => rfl, fun _ => rfl⟩
  · split
    · exact ⟨Or.inl rfl, fun _ => rfl, fun _ => rfl⟩
    · rename_i hkey
      split
      · exact ⟨Or.inl rfl, fun _ => rfl, fun _ => rfl⟩
      · exact ⟨Or.inl rfl, fun _ => rfl, fun _ => rfl⟩
      · exact ⟨Or.inl rfl, fun _ => rfl, fun _ => rfl⟩
      · exact ⟨Or.inl rfl, fun _ => rfl, fun _ => rfl⟩
      · next gq hup =>
        split
        · exact ⟨Or.inl rfl, fun _ => rfl, fun _ => rfl⟩
        · next hp =>
          split
          · exact ⟨Or.inl rfl, fun _ => rfl, fun _ => rfl⟩
          · next cp hcp =>
            refine ⟨Or.inr ⟨gq, cp, hup, hp, hcp, rfl, rfl⟩, ?_, ?_⟩
            · exact fun hfalse => absurd hfalse hkey
            · exact fun hnone => Option.noConfusion hnone

/-- Witness for C4: a mock-mode call leaves the storage untouched. -/
theorem cache_written_only_on_live_witness :
    (Env.mk false (fun _ => UpstreamResult.fetchThrow)).hasApiKey = false ∧
    (getQuote (Env.mk false (fun _ => UpstreamResult.fetchThrow)) (some []) 0 "AAPL").db =
      some [] :=
  ⟨rfl,
   (cache_written_only_on_live (Env.mk false (fun _ => UpstreamResult.fetchThrow))
     (some []) 0 "AAPL").2.1 rfl⟩

/-- The quotes of a batch are exactly the per-symbol results in input
order with the nulls dropped. -/
theorem getMultipleQuotes_quotes_eq (env : Env) (db : Db) (now : Int) (ss : List String) :
    (getMultipleQuotes env db now ss).quotes = (runSymbols env db now ss).reduceOption := by
  induction ss generalizing db with
  | nil => rfl
  | cons s rest ih =>
    unfold getMultipleQuotes runSymbols
    cases h : (getQuote env db now s).result with
    | none => simp [h, List.reduceOption, ih]
    | some q => simp [h, List.reduceOption, ih]

/-- With an API key, the batch trace is the calls in input order with one
12000 ms delay between each consecutive pair. -/
theorem getMultipleQuotes_events_live (env : Env) (db : Db) (now : Int) (ss : List String)
    (hkey : env.hasApiKey = true) :
    (getMultipleQuotes env db now ss).events = callsWithDelays ss := by
  induction ss generalizing db with
  | nil => rfl
  | cons s rest ih =>
    cases rest with
    | nil => simp [getMultipleQuotes, callsWithDelays, hkey]
    | cons r rs =>
      unfold getMultipleQuotes
      simp [callsWithDelays, hkey, ih]

/-- Without an API key, the batch trace has no delay at all. -/
theorem getMultipleQuotes_events_mock (env : Env) (db : Db) (now : Int) (ss : List String)
    (hkey : env.hasApiKey = false) :
    (getMultipleQuotes env db now ss).events = ss.map Ev.call := by
  induction ss generalizing db with
  | nil => rfl
  | cons s rest ih =>
    unfold getMultipleQuotes
    simp [hkey, ih]

/-- The trace `callsWithDelays` has one delay per consecutive pair. -/
theorem countDelays_callsWithDelays (ss : List String) :
    countDelays (callsWithDelays ss) = ss.length - 1 := by
  induction ss with
  | nil => rfl
  | cons s rest ih =>
    cases rest with
    | nil => rfl
    | cons r rs =>
      simp only [callsWithDelays, countDelays, List.countP_cons] at ih ⊢
      simp at ih ⊢
      omega

/-- A pure call trace has no delays. -/
theorem countDelays_map_call (ss : List String) :
    countDelays (ss.map Ev.call) = 0 := by
  induction ss with
  | nil => rfl
  | cons s rest ih => simp [countDelays, List.countP_cons] at ih ⊢

/-- C5: `getMultipleQuotes` processes the symbols one at a time in input
order; with an API key configured its trace is exactly the calls in input
order separated by the fixed 12000 ms delay (and without one, plain
sequential calls); and the returned list is exactly the non-null
per-symbol results in order, the null ones omitted. -/
theorem getMultipleQuotes_sequential (env : Env) (db : Db) (now : Int) (ss : List String) :
    ((getMultipleQuotes env db now ss).quotes = (runSymbols env db now ss).reduceOption) ∧
    (env.hasApiKey = true → (getMultipleQuotes env db now ss).events = callsWithDelays ss) ∧
    (env.hasApiKey = false → (getMultipleQuotes env db now ss).events = ss.map Ev.call) :=
  ⟨getMultipleQuotes_quotes_eq env db now ss,
   fun h => getMultipleQuotes_events_live env db now ss h,
   fun h => getMultipleQuotes_events_mock env db now ss h⟩

/-- Witness for C5: a live-configured three-symbol batch (the upstream
fetch throws, so each falls back) has the interspersed-delay trace, and
the unknown symbol `"zzz"` is omitted from the quotes. -/
theorem getMultipleQuotes_sequential_witness :
    (Env.mk true (fun _ => UpstreamResult.fetchThrow)).hasApiKey = true ∧
    (getMultipleQuotes (Env.mk true (fun _ => UpstreamResult.fetchThrow))
        (some []) 0 ["aapl", "zzz", "MSFT"]).events =
      callsWithDelays ["aapl", "zzz", "MSFT"] ∧
    (getMultipleQuotes (Env.mk true (fun _ => UpstreamResult.fetchThrow))
        (some []) 0 ["aapl", "zzz", "MSFT"]).quotes =
      (runSymbols (Env.mk true (fun _ => UpstreamResult.fetchThrow))
        (some []) 0 ["aapl", "zzz", "MSFT"]).reduceOption :=
  ⟨rfl,
   (getMultipleQuotes_sequential (Env.mk true (fun _ => UpstreamResult.fetchThrow))
     (some []) 0 ["aapl", "zzz", "MSFT"]).2.1 rfl,
   (getMultipleQuotes_sequential (Env.mk true (fun _ => UpstreamResult.fetchThrow))
     (some []) 0 ["aapl", "zzz", "MSFT"]).1⟩

/-- C10: with an API key configured the batch inserts the delay after
every symbol except the last — `max(0, n-1)` delays for `n` symbols,
regardless of whether each symbol was served from cache, live, fallback or
resolved to null — and without an API key it inserts none. -/
theorem getMultipleQuotes_delay_count (env : Env) (db : Db) (now : Int) (ss : List String) :
    countDelays (getMultipleQuotes env db now ss).events =
      if env.hasApiKey then ss.length - 1 else 0 := by
  cases hkey : env.hasApiKey
  · rw [getMultipleQuotes_events_mock env db now ss hkey, countDelays_map_call]
    simp
  · rw [getMultipleQuotes_events_live env db now ss hkey, countDelays_callsWithDelays]
    simp

/-- C2 counterexample: a live fetch stores the quote under the upstream's
`latest trading day` timestamp, not the fetch time, so a second `getQuote`
one second after a successful first one can still miss the cache and fetch
again.  Here the trading day is 1970-01-02 (timestamp 86400000 ms) and the
first call happens ten minutes later (87000000 ms): the entry it writes is
already older than the 5-minute window, the second call one second later
re-fetches, and two live fetches occur where the claim demands exactly
one. -/
theorem second_call_within_window_refetches :
    (getQuote envOk (some []) 87000000 "AAPL").result.isSome = true ∧
    (getQuote envOk (some []) 87000000 "AAPL").liveFetches = 1 ∧
    (getQuote envOk ((getQuote envOk (some []) 87000000 "AAPL").db) 87001000 "AAPL").liveFetches
      = 1 := by
  constructor
  · decide
  constructor
  · decide
  · decide

/-- C2 (amended): a fresh cache entry is served with no provider fetch and
no storage change; and a second call after a first live-fetching call is
served from the cache with no second fetch — provided the second call is
still within the expiry window of the quote's `latest trading day`
timestamp (which is what the fetch stores as `lastUpdated`, not the fetch
time) and the upstream echoes a spelling of the requested symbol.  The
second call then returns the stored quote, whose symbol is the upper-cased
upstream symbol. -/
theorem fresh_cache_hit_skips_fetch (env : Env) (s : String) :
    (∀ (db : Db) (now : Int) (q : StockQuote),
        getCachedPrice (Q.ofInt 5) db now s = some q →
        getQuote env db now s = ⟨some q, db, 0⟩) ∧
    (∀ (store : Store) (now1 now2 : Int) (gq : RawGlobalQuote) (cp : String),
        env.hasApiKey = true →
        env.upstream (toUpperJS s) = UpstreamResult.payload (some gq) →
        gq.price05 ≠ "" →
        gq.changePercent10 = some cp →
        toUpperJS gq.symbol01 = toUpperJS s →
        getCachedPrice (Q.ofInt 5) (some store) now1 s = none →
        expiredB (Q.ofInt 5) now2 (parseDateJS gq.latestTradingDay07) = false →
        (getQuote env (some store) now1 s).liveFetches = 1 ∧
        getQuote env (getQuote env (some store) now1 s).db now2 s =
          ⟨some { buildStockQuote gq cp with symbol := toUpperJS gq.symbol01 },
           (getQuote env (some store) now1 s).db, 0⟩) := by
  constructor
  · intro db now q hq
    exact getQuote_cache_hit env db now s q hq
  · intro store now1 now2 gq cp hkey hup hp hcp hsym hmiss hfresh
    have ho1 : getQuote env (some store) now1 s =
        ⟨some (buildStockQuote gq cp),
         some (upsert store { buildStockQuote gq cp with symbol := toUpperJS gq.symbol01 }), 1⟩ :=
      getQuote_live_success env (some store) now1 s gq cp hmiss hkey hup hp hcp
    have hfind : findBySymbol
        (upsert store { buildStockQuote gq cp with symbol := toUpperJS gq.symbol01 })
        (toUpperJS s) =
        some { buildStockQuote gq cp with symbol := toUpperJS gq.symbol01 } := by
      rw [← hsym]
      exact findBySymbol_upsert_self store _
    have hcache2 : getCachedPrice (Q.ofInt 5)
        (some (upsert store { buildStockQuote gq cp with symbol := toUpperJS gq.symbol01 }))
        now2 s =
        some { buildStockQuote gq cp with symbol := toUpperJS gq.symbol01 } :=
      getCachedPrice_found_fresh (Q.ofInt 5) _ now2 s _ hfind hfresh
    rw [ho1]
    refine ⟨rfl, ?_⟩
    show getQuote env
        (some (upsert store { buildStockQuote gq cp with symbol := toUpperJS gq.symbol01 }))
        now2 s =
      ⟨some { buildStockQuote gq cp with symbol := toUpperJS gq.symbol01 },
       some (upsert store { buildStockQuote gq cp with symbol := toUpperJS gq.symbol01 }), 0⟩
    exact getQuote_cache_hit env _ now2 s _ hcache2

/-- Witness for C2 (amended): the cache-hit conjunct at a one-minute-old
entry, and the live round-trip at `envOk` with the first call one minute
after the trading-day midnight and the second a further minute later. -/
theorem fresh_cache_hit_skips_fetch_witness :
    getCachedPrice (Q.ofInt 5)
      (some [⟨"AAPL", some (Q.ofInt 1), some (Q.ofInt 1), some (Q.ofInt 1),
              some (Q.ofInt 1), some 0⟩]) 60000 "AAPL" =
      some ⟨"AAPL", some (Q.ofInt 1), some (Q.ofInt 1), some (Q.ofInt 1),
            some (Q.ofInt 1), some 0⟩ ∧
    getQuote envOk
      (some [⟨"AAPL", some (Q.ofInt 1), some (Q.ofInt 1), some (Q.ofInt 1),
              some (Q.ofInt 1), some 0⟩]) 60000 "AAPL" =
      ⟨some ⟨"AAPL", some (Q.ofInt 1), some (Q.ofInt 1), some (Q.ofInt 1),
             some (Q.ofInt 1), some 0⟩,
       some [⟨"AAPL", some (Q.ofInt 1), some (Q.ofInt 1), some (Q.ofInt 1),
              some (Q.ofInt 1), some 0⟩], 0⟩ ∧
    (getQuote envOk (some []) 86460000 "AAPL").liveFetches = 1 ∧
    getQuote envOk (getQuote envOk (some []) 86460000 "AAPL").db 86520000 "AAPL" =
      ⟨some { buildStockQuote gqOk "1%" with symbol := toUpperJS gqOk.symbol01 },
       (getQuote envOk (some []) 86460000 "AAPL").db, 0⟩ :=
  ⟨by decide,
   (fresh_cache_hit_skips_fetch envOk "AAPL").1 _ 60000 _ (by decide),
   ((fresh_cache_hit_skips_fetch envOk "AAPL").2 [] 86460000 86520000 gqOk "1%"
     rfl rfl (by decide) rfl (by decide) (by decide) (by decide)).1,
   ((fresh_cache_hit_skips_fetch envOk "AAPL").2 [] 86460000 86520000 gqOk "1%"
     rfl rfl (by decide) rfl (by decide) (by decide) (by decide)).2⟩

/-- C3 counterexample: a malformed numeric field does not trigger the
static fallback.  The upstream price `"abc"` fails to parse
(`parseFloat` yields `NaN`), yet `getQuote` returns a Quote built from the
malformed fields — price `NaN`, the other fields parsed — and even caches
it, instead of answering with the static-table quote for AAPL or null. -/
theorem malformed_price_not_treated_as_failure :
    parseFloatJS gqBadPrice.price05 = none ∧
    (getQuote envBadPrice (some []) 0 "AAPL").result =
      some ⟨"AAPL", none, some (Q.ofInt 1), some (Q.ofInt 1), some (Q.ofInt 10),
            some 86400000⟩ ∧
    (getQuote envBadPrice (some []) 0 "AAPL").result ≠ getMockQuote 0 "AAPL" ∧
    (getQuote envBadPrice (some []) 0 "AAPL").result ≠ none ∧
    (getQuote envBadPrice (some []) 0 "AAPL").db =
      some [⟨"AAPL", none, some (Q.ofInt 1), some (Q.ofInt 1), some (Q.ofInt 10),
             some 86400000⟩] :=
  ⟨by decide, by decide, by decide, by decide, by decide⟩

/-- C3 (amended): on a cache miss in live mode, only a field access that
throws is treated as a fetch failure — a body whose `10. change percent`
field is absent makes `.replace` throw and falls back to the static table.
A body with a truthy price and a present change-percent field always
yields the built quote, returned and cached, even when its numeric fields
are malformed (they parse to `NaN`); and a falsy price yields null. -/
theorem live_parse_behaviour (env : Env) (db : Db) (now : Int) (s : String)
    (hmiss : getCachedPrice (Q.ofInt 5) db now s = none)
    (hkey : env.hasApiKey = true) :
    (∀ gq, env.upstream (toUpperJS s) = UpstreamResult.payload (some gq) →
        gq.price05 ≠ "" → gq.changePercent10 = none →
        getQuote env db now s = ⟨getMockQuote now s, db, 1⟩) ∧
    (∀ gq cp, env.upstream (toUpperJS s) = UpstreamResult.payload (some gq) →
        gq.price05 ≠ "" → gq.changePercent10 = some cp →
        getQuote env db now s =
          ⟨some (buildStockQuote gq cp), setCachedPrice db (buildStockQuote gq cp), 1⟩) ∧
    (∀ gq, env.upstream (toUpperJS s) = UpstreamResult.payload (some gq) →
        gq.price05 = "" → getQuote env db now s = ⟨none, db, 1⟩) :=
  ⟨fun gq hup hp hcp => getQuote_cp_missing_falls_back env db now s gq hmiss hkey hup hp hcp,
   fun gq cp hup hp hcp => getQuote_live_success env db now s gq cp hmiss hkey hup hp hcp,
   fun gq hup hp => getQuote_price_falsy_null env db now s gq hmiss hkey hup hp⟩

/-- Witness for C3 (amended): the three upstream shapes at concrete
environments — absent change-percent falls back to the mock table, a
malformed price is returned and cached as `NaN`, an empty price gives
null. -/
theorem live_parse_behaviour_witness :
    getQuote envNoCp (some []) 0 "AAPL" = ⟨getMockQuote 0 "AAPL", some [], 1⟩ ∧
    getQuote envBadPrice (some []) 0 "AAPL" =
      ⟨some (buildStockQuote gqBadPrice "1%"),
       setCachedPrice (some []) (buildStockQuote gqBadPrice "1%"), 1⟩ ∧
    getQuote envEmptyPrice (some []) 0 "AAPL" = ⟨none, some [], 1⟩ :=
  ⟨(live_parse_behaviour envNoCp (some []) 0 "AAPL" (by decide) rfl).1
     gqNoCp rfl (by decide) rfl,
   (live_parse_behaviour envBadPrice (some []) 0 "AAPL" (by decide) rfl).2.1
     gqBadPrice "1%" rfl (by decide) rfl,
   (live_parse_behaviour envEmptyPrice (some []) 0 "AAPL" (by decide) rfl).2.2
     gqEmptyPrice rfl rfl⟩

/-- C7 counterexample: nothing validates `price ≥ 0`.  With an upstream
price of `"-5"` the returned quote and the cache entry written for it both
carry the negative price −5, refuting the data-model invariant as a
property of every stored/returned Quote. -/
theorem negative_price_returned_and_cached :
    (getQuote envNegPrice (some []) 0 "AAPL").result =
      some ⟨"AAPL", some (Q.ofInt (-5)), some (Q.ofInt 0), some (Q.ofInt 0),
            some (Q.ofInt 1), some 0⟩ ∧
    (getQuote envNegPrice (some []) 0 "AAPL").db =
      some [⟨"AAPL", some (Q.ofInt (-5)), some (Q.ofInt 0), some (Q.ofInt 0),
             some (Q.ofInt 1), some 0⟩] ∧
    (Q.ofInt (-5)).num < 0 :=
  ⟨by decide, by decide, by decide⟩

/-- C7 (amended): the upper-cased-symbol half of the invariant does hold
for the cache — every row a `setCachedPrice` adds or replaces carries the
upper-cased symbol of the written quote — and static-table quotes satisfy
the full invariant (upper-cased symbol, price ≥ 0); but live quotes'
prices are unvalidated (see the counterexample). -/
theorem cache_symbol_upper_and_mock_wellformed :
    (∀ (db : Db) (q r : StockQuote) (st : Store),
        setCachedPrice db q = some st → r ∈ st →
        (∃ st0, db = some st0 ∧ r ∈ st0) ∨ r.symbol = toUpperJS q.symbol) ∧
    (∀ (now : Int) (s : String) (q : StockQuote), getMockQuote now s = some q →
        q.symbol = toUpperJS s ∧ ∃ p, q.price = some p ∧ 0 ≤ p.num) := by
  constructor
  · intro db q r st hset hmem
    cases db with
    | none => exact Option.noConfusion hset
    | some st0 =>
      injection hset with hst
      subst hst
      rcases mem_upsert hmem with h | h
      · exact Or.inl ⟨st0, rfl, h⟩
      · subst h
        exact Or.inr rfl
  · intro now s q hq
    unfold getMockQuote at hq
    rw [Option.map_eq_some'] at hq
    obtain ⟨d, hd, rfl⟩ := hq
    refine ⟨rfl, d.price, rfl, ?_⟩
    have hall : ∀ p ∈ mockData, 0 ≤ p.2.price.num := by decide
    exact hall _ (lookup_mem hd)

/-- Witness for C7 (amended): writing the lower-case quote `lowQuote` into
an empty store yields a row whose symbol is upper-cased, and the mock
quote for `"aapl"` satisfies the invariant. -/
theorem cache_symbol_upper_and_mock_wellformed_witness :
    ((∃ st0, (some [] : Db) = some st0 ∧
        (⟨"AAPL", some (Q.ofInt 1), some (Q.ofInt 0), some (Q.ofInt 0), some (Q.ofInt 0),
          some 0⟩ : StockQuote) ∈ st0) ∨
      (⟨"AAPL", some (Q.ofInt 1), some (Q.ofInt 0), some (Q.ofInt 0), some (Q.ofInt 0),
        some 0⟩ : StockQuote).symbol = toUpperJS lowQuote.symbol) ∧
    ((⟨"AAPL", some (Q.cent 175 25), some (Q.cent 2 15), some (Q.cent 1 24),
       some (Q.ofInt 65432100), some 0⟩ : StockQuote).symbol = toUpperJS "aapl" ∧
      ∃ p, (⟨"AAPL", some (Q.cent 175 25), some (Q.cent 2 15), some (Q.cent 1 24),
            some (Q.ofInt 65432100), some 0⟩ : StockQuote).price = some p ∧ 0 ≤ p.num) :=
  ⟨cache_symbol_upper_and_mock_wellformed.1 (some []) lowQuote
     ⟨"AAPL", some (Q.ofInt 1), some (Q.ofInt 0), some (Q.ofInt 0), some (Q.ofInt 0), some 0⟩
     [⟨"AAPL", some (Q.ofInt 1), some (Q.ofInt 0), some (Q.ofInt 0), some (Q.ofInt 0), some 0⟩]
     (by decide) (by decide),
   cache_symbol_upper_and_mock_wellformed.2 0 "aapl"
     ⟨"AAPL", some (Q.cent 175 25), some (Q.cent 2 15), some (Q.cent 1 24),
      some (Q.ofInt 65432100), some 0⟩ (by decide)⟩

/-- C8 counterexample: `put` upper-cases the symbol, so the round-trip is
not the identity on a quote whose symbol has lower-case letters — for the
quote `lowQuote` (symbol `"aapl"`) the `get` after `put` returns the quote
with symbol `"AAPL"`, different from the input in the symbol field. -/
theorem roundtrip_changes_lowercase_symbol :
    getCachedPrice (Q.ofInt 5) (setCachedPrice (some []) lowQuote) 0 lowQuote.symbol =
      some ⟨"AAPL", some (Q.ofInt 1), some (Q.ofInt 0), some (Q.ofInt 0), some (Q.ofInt 0),
            some 0⟩ ∧
    getCachedPrice (Q.ofInt 5) (setCachedPrice (some []) lowQuote) 0 lowQuote.symbol ≠
      some lowQuote :=
  ⟨by decide, by decide⟩

/-- C8 (amended): `put(q)` followed by `get(q.symbol)` while the entry is
unexpired returns the quote with price, change, changePercent, volume and
`lastUpdated` equal to the input's and the symbol upper-cased — so the
round-trip is the identity exactly on quotes whose symbol is already
upper-cased. -/
theorem put_get_roundtrip_upper (store : Store) (q : StockQuote) (now : Int) (e : Q)
    (hfresh : expiredB e now q.lastUpdated = false) :
    getCachedPrice e (setCachedPrice (some store) q) now q.symbol =
      some { q with symbol := toUpperJS q.symbol } := by
  have hfind : findBySymbol (upsert store { q with symbol := toUpperJS q.symbol })
      (toUpperJS q.symbol) = some { q with symbol := toUpperJS q.symbol } :=
    findBySymbol_upsert_self store _
  exact getCachedPrice_found_fresh e _ now q.symbol _ hfind hfresh

/-- Witness for C8 (amended) at `lowQuote` in an empty store, read at the
write's own timestamp. -/
theorem put_get_roundtrip_upper_witness :
    expiredB (Q.ofInt 5) 0 lowQuote.lastUpdated = false ∧
    getCachedPrice (Q.ofInt 5) (setCachedPrice (some []) lowQuote) 0 lowQuote.symbol =
      some { lowQuote with symbol := toUpperJS lowQuote.symbol } :=
  ⟨by decide, put_get_roundtrip_upper [] lowQuote 0 (Q.ofInt 5) (by decide)⟩

end SeaStocks
